import Mathlib

set_option maxRecDepth 200000
set_option maxHeartbeats 4000000

/-!
Verification of the knowledge-base synchronization and contribution pipeline
of the knowledge-agent repository: a shallow embedding of the relevant
functions of backend/main.py, backend/github_client.py and the agent tools
(search_knowledge.py, list_notes.py, draft_note.py), together with theorems
settling the behavioural claims about them.

Strings are modelled as Lean strings (sequences of Unicode code points, as in
Python); the Python string helpers used by the code (strip, lower, title,
replace, find, startswith, split) are embedded for the ASCII range they are
exercised on.  Machine floats (time.time) are modelled as rationals.
-/

namespace KnowledgeAgent

/-- Python whitespace characters (str.strip, regex \s), ASCII range. -/
def isPySpace (c : Char) : Bool :=
  c = ' ' || c = '\t' || c = '\n' || c = '\r' || c = '\x0b' || c = '\x0c'

/-- Python str.strip on a list of characters: drop whitespace at both ends. -/
def pyStripL (l : List Char) : List Char :=
  ((l.dropWhile isPySpace).reverse.dropWhile isPySpace).reverse

/-- Python str.strip. -/
def pyStrip (s : String) : String :=
  String.mk (pyStripL s.data)

/-- Python str.lower, one character (ASCII range). -/
def pyLowerChar (c : Char) : Char :=
  if 'A' ≤ c ∧ c ≤ 'Z' then Char.ofNat (c.toNat + 32) else c

/-- Python str.lower on a list of characters. -/
def pyLowerL (l : List Char) : List Char :=
  l.map pyLowerChar

/-- Python str.upper, one character (ASCII range). -/
def pyUpperChar (c : Char) : Char :=
  if 'a' ≤ c ∧ c ≤ 'z' then Char.ofNat (c.toNat - 32) else c

/-- ASCII letter test (the cased characters of the ASCII range). -/
def isAsciiAlpha (c : Char) : Bool :=
  ('a' ≤ c ∧ c ≤ 'z') || ('A' ≤ c ∧ c ≤ 'Z')

/-- Python str.title on a list of characters: a letter that follows a letter
is lowercased, any other letter is uppercased (ASCII range). -/
def pyTitleAux (prevAlpha : Bool) : List Char → List Char
  | [] => []
  | c :: cs =>
    if isAsciiAlpha c then
      (if prevAlpha then pyLowerChar c else pyUpperChar c) :: pyTitleAux true cs
    else
      c :: pyTitleAux false cs

/-- Python str.title. -/
def pyTitleL (l : List Char) : List Char :=
  pyTitleAux false l

/-- Python substring containment (the in operator) on character lists. -/
def containsSub (needle : List Char) : List Char → Bool
  | [] => needle.isEmpty
  | c :: cs => needle.isPrefixOf (c :: cs) || containsSub needle cs

/-- Python str.find on character lists: index of the first occurrence of the
needle, or none (Python returns -1). -/
def findSub (needle : List Char) : List Char → Option Nat
  | [] => if needle.isEmpty then some 0 else none
  | c :: cs =>
    if needle.isPrefixOf (c :: cs) then some 0
    else (findSub needle cs).map (· + 1)

/-- The first line of a string: the prefix before the first newline
(str.split applied to a newline, first element). -/
def firstLineL (l : List Char) : List Char :=
  l.takeWhile (· ≠ '\n')

/-- Replace every occurrence of one character by another (str.replace with
single-character arguments). -/
def replChar (a b : Char) (l : List Char) : List Char :=
  l.map fun c => if c = a then b else c

/-- Remove every occurrence of the three-character pattern ".md"
(str.replace of ".md" by the empty string, scanning left to right). -/
def removeMd : List Char → List Char
  | '.' :: 'm' :: 'd' :: rest => removeMd rest
  | c :: cs => c :: removeMd cs
  | [] => []

/-- Lexicographic comparison of character lists by code point, as Python
compares strings (less-or-equal). -/
def listLe : List Char → List Char → Bool
  | [], _ => true
  | _ :: _, [] => false
  | a :: as', b :: bs =>
    if a.toNat < b.toNat then true
    else if b.toNat < a.toNat then false
    else listLe as' bs

/-- Insert into a sorted list, before the first element not below the new one
(the stable insertion used to model Python sorted). -/
def insertLe (le : α → α → Bool) (a : α) : List α → List α
  | [] => [a]
  | b :: l => if le a b then a :: b :: l else b :: insertLe le a l

/-- Stable insertion sort, modelling Python sorted. -/
def sortLe (le : α → α → Bool) : List α → List α
  | [] => []
  | a :: l => insertLe le a (sortLe le l)

/-- First-seen-order deduplication (the distinct keys of a dict built by
successive insertions). -/
def dedupSeen (seen : List String) : List String → List String
  | [] => []
  | x :: xs =>
    if seen.contains x then dedupSeen seen xs
    else x :: dedupSeen (x :: seen) xs

/-!
The note store.  fetch_knowledge_base builds a dict mapping each markdown
filename to a record with fields content, title, path and topic; Python dicts
preserve insertion order, so the store is modelled as an association list.
-/

/-- One note record as built by fetch_knowledge_base. -/
structure NoteData where
  content : String
  title : String
  path : String
  topic : String
deriving DecidableEq

/-- The in-memory note store: path to note record, in insertion order. -/
abbrev NotesMap := List (String × NoteData)

/-- Dict key membership. -/
def containsKey (notes : NotesMap) (p : String) : Bool :=
  notes.any fun pn => pn.1 = p

/-- Dict lookup (first match; keys are unique in a Python dict). -/
def lookupNote (notes : NotesMap) (p : String) : Option NoteData :=
  (notes.find? fun pn => pn.1 = p).map (·.2)

/-- Topic assignment at fetch time (github_client.fetch_knowledge_base):
the manifest-derived mapping is consulted, with default "General"
(note_to_cluster.get with a default). -/
def note_topic (note_to_cluster : List (String × String)) (filename : String) : String :=
  ((note_to_cluster.find? fun pn => pn.1 = filename).map (·.2)).getD "General"

/-!
github_client.extract_title_from_content.  The source matches the stripped
content against the regular expression "^#\s+(.+)$" with re.match under
MULTILINE: the match is anchored at position 0, "\s+" greedily consumes a
nonempty whitespace run (which may include newlines), and "(.+)$" takes the
remainder of the line the first non-whitespace character sits on.  On failure
it falls back to a filename-derived title: "-" and "_" replaced by spaces,
every occurrence of ".md" removed, the result title-cased.
-/

/-- The filename fallback of extract_title_from_content. -/
def fallbackTitle (filename : String) : String :=
  String.mk (pyTitleL (removeMd (replChar '_' ' ' (replChar '-' ' ' filename.data))))

/-- github_client.extract_title_from_content. -/
def extract_title_from_content (content filename : String) : String :=
  match pyStripL content.data with
  | c :: rest =>
    if c = '#' then
      let ws := rest.takeWhile isPySpace
      let r := rest.dropWhile isPySpace
      if ws.isEmpty || r.isEmpty then fallbackTitle filename
      else String.mk (pyStripL (r.takeWhile (· ≠ '\n')))
    else fallbackTitle filename
  | [] => fallbackTitle filename

/-- Whether the heading regular expression of extract_title_from_content
matches: the stripped content starts with a hash, followed by at least one
whitespace character, followed by at least one further character. -/
def titleMatches (content : String) : Bool :=
  match pyStripL content.data with
  | c :: rest =>
    c = '#' && !(rest.takeWhile isPySpace).isEmpty && !(rest.dropWhile isPySpace).isEmpty
  | [] => false

/-!
agent/tools/draft_note.py.  The tool derives a title from the first line of
the stripped content when none is supplied, a path by slugifying the title,
and classifies the draft as new by key membership in the note store.  The
returned chat message and marker string carry exactly these fields, so the
draft event structure is the embedded result.
-/

/-- A slug character: lowercase ASCII letter or digit (the character class
of the slug regular expression "[^a-z0-9]+" applied after lowercasing). -/
def isSlugChar (c : Char) : Bool :=
  ('a' ≤ c ∧ c ≤ 'z') || ('0' ≤ c ∧ c ≤ '9')

/-- re.sub of "[^a-z0-9]+" by "-": each maximal run of non-slug characters
becomes a single hyphen.  The flag records whether the previous character
was part of such a run. -/
def slugSub (prevBad : Bool) : List Char → List Char
  | [] => []
  | c :: cs =>
    if isSlugChar c then c :: slugSub false cs
    else if prevBad then slugSub true cs
    else '-' :: slugSub true cs

/-- Python str.strip applied to a hyphen argument: drop hyphens at both ends. -/
def stripDashes (l : List Char) : List Char :=
  ((l.dropWhile (· = '-')).reverse.dropWhile (· = '-')).reverse

/-- The slug of a title: lowercase, non-alphanumeric runs collapsed to one
hyphen, hyphens stripped at both ends (draft_note.py line 48). -/
def slugify (title : String) : List Char :=
  stripDashes (slugSub false (pyLowerL title.data))

/-- Well-formedness of a slug, as the claim describes it: only lowercase
alphanumerics and hyphens, no hyphen at either end, and no two adjacent
hyphens (runs collapsed to a single hyphen). -/
def slugWF (l : List Char) : Prop :=
  (∀ c ∈ l, isSlugChar c = true ∨ c = '-') ∧
  (∀ c, l.head? = some c → c ≠ '-') ∧
  (∀ c, l.getLast? = some c → c ≠ '-') ∧
  List.Chain' (fun a b => ¬(a = '-' ∧ b = '-')) l

/-- The title derived from content by draft_note: the first line of the
stripped content when it starts with "# ", else the literal fallback. -/
def deriveTitle (content : String) : String :=
  let first_line := firstLineL (pyStripL content.data)
  if ['#', ' '].isPrefixOf first_line then String.mk (pyStripL (first_line.drop 2))
  else "Untitled Note"

/-- The draft event produced by draft_note (its type, path, title, content
and is_new fields; the type field is the constant "draft_note"). -/
structure DraftEvent where
  path : String
  title : String
  content : String
  is_new : Bool
deriving DecidableEq

/-- agent/tools/draft_note.draft_note.  Python treats an absent argument and
an empty string alike (if not title), hence the emptiness tests. -/
def draft_note (content : String) (title? path? : Option String) (notes : NotesMap) :
    DraftEvent :=
  let title :=
    match title? with
    | some t => if t = "" then deriveTitle content else t
    | none => deriveTitle content
  let path :=
    match path? with
    | some p => if p = "" then String.mk (slugify title) ++ ".md" else p
    | none => String.mk (slugify title) ++ ".md"
  { path := path, title := title, content := content,
    is_new := !containsKey notes path }

/-!
agent/tools/search_knowledge.py.  Case-insensitive substring match of the
query against title or content; a snippet of 100 characters of context around
the first content match, or the first 200 characters when the match was in
the title only; the formatted result lists the first 10 matches and reports
the number of any further ones.
-/

/-- One search match: path, title and stripped snippet. -/
structure SearchMatch where
  path : String
  title : String
  snippet : String
deriving DecidableEq

/-- The snippet for one matching note (search_knowledge.py lines 31-45). -/
def searchSnippet (query : String) (content : String) : List Char :=
  let query_lower := pyLowerL query.data
  let content_lower := pyLowerL content.data
  match findSub query_lower content_lower with
  | some pos =>
    let start := pos - 100
    let stop := min content.data.length (pos + query.data.length + 100)
    let snippet := (content.data.take stop).drop start
    let snippet := if 0 < start then ("...".data ++ snippet) else snippet
    if stop < content.data.length then snippet ++ "...".data else snippet
  | none =>
    if 200 < content.data.length then content.data.take 200 ++ "...".data
    else content.data

/-- The ordered list of matches of a query over the note store
(discovery order, i.e. dict insertion order). -/
def searchMatches (notes : NotesMap) (query : String) : List SearchMatch :=
  let query_lower := pyLowerL query.data
  (notes.filter fun pn =>
      containsSub query_lower (pyLowerL pn.2.title.data) ||
      containsSub query_lower (pyLowerL pn.2.content.data)).map
    fun pn =>
      { path := pn.1, title := pn.2.title,
        snippet := String.mk (pyStripL (searchSnippet query pn.2.content)) }

/-- The formatted block for one listed match. -/
def fmtMatch (m : SearchMatch) : String :=
  "**" ++ m.title ++ "** (`" ++ m.path ++ "`)\n> " ++ m.snippet ++ "\n\n"

/-- agent/tools/search_knowledge.search_knowledge: the full formatted reply. -/
def search_knowledge (notes : NotesMap) (query : String) : String :=
  if notes.isEmpty then
    "No knowledge base loaded. Please ensure notes are available."
  else
    let ms := searchMatches notes query
    if ms.isEmpty then
      "No notes found matching \x27" ++ query ++
        "\x27. Try different keywords or use list_notes to see all available notes."
    else
      let result := "Found " ++ toString ms.length ++ " note(s) matching \x27" ++
        query ++ "\x27:\n\n" ++ String.join ((ms.take 10).map fmtMatch)
      if 10 < ms.length then
        result ++ "...and " ++ toString (ms.length - 10) ++ " more results."
      else result

/-!
agent/tools/list_notes.py.  The tool reads only the path and title of each
note: it groups by the first directory component of the path (topic "General"
for top-level paths), sorts topics and, within a topic, notes by title, and
renders the counts and items.  The grouping key and the item projection are
factored out so the theorems can speak about them.
-/

/-- The grouping key of list_notes: the first path component when the path
contains a slash, else "General" (list_notes.py lines 25-30). -/
def groupKey (path : String) : String :=
  if path.data.contains '/' then String.mk (path.data.takeWhile (· ≠ '/'))
  else "General"

/-- The (path, title) projection of the store; list_notes reads nothing else
of a note. -/
def itemsOf (notes : NotesMap) : List (String × String) :=
  notes.map fun pn => (pn.1, pn.2.title)

/-- The items listed under one topic, in store order (the defaultdict bucket
of that topic). -/
def groupItems (items : List (String × String)) (topic : String) :
    List (String × String) :=
  items.filter fun it => groupKey it.1 = topic

/-- The rendered section for one topic. -/
def fmtTopic (items : List (String × String)) (topic : String) : String :=
  let topic_notes := sortLe (fun a b => listLe a.2.data b.2.data) (groupItems items topic)
  "## " ++ String.mk (pyTitleL (replChar '-' ' ' topic.data)) ++ " (" ++
    toString topic_notes.length ++ " notes)\n" ++
    String.join (topic_notes.map fun it => "- **" ++ it.2 ++ "** (`" ++ it.1 ++ "`)\n") ++
    "\n"

/-- list_notes on the projected items. -/
def list_notes_items (items : List (String × String)) : String :=
  if items.isEmpty then
    "No knowledge base loaded. Please ensure notes are available."
  else
    let topics := sortLe (fun a b => listLe a.data b.data)
      (dedupSeen [] (items.map fun it => groupKey it.1))
    "Knowledge Base: " ++ toString items.length ++ " note(s) across " ++
      toString topics.length ++ " topic(s)\n\n" ++
      String.join (topics.map (fmtTopic items)) ++
      "Use search_knowledge to find specific information, or get_note to read a full note."

/-- agent/tools/list_notes.list_notes. -/
def list_notes (notes : NotesMap) : String :=
  list_notes_items (itemsOf notes)

/-!
backend/main.refresh_notes_cache.  The module-level cache is a notes mapping
plus the wall-clock time of the last successful fetch; time.time values
(IEEE floats, hence rationals) are modelled as rationals.  The remote fetch
is an external effect: one call performs at most one fetch, whose outcome is
passed in as data (ok carries the fetched mapping, error the raised
exception message).  The embedded function returns the served mapping, the
new cache state, and whether a remote fetch was performed; its totality
reflects that the Python function catches every fetch exception.
-/

/-- The cache: notes mapping and timestamp of the last successful fetch. -/
structure CacheState where
  notes_cache : NotesMap
  cache_timestamp : ℚ
deriving DecidableEq

/-- The cache TTL: 300 seconds (main.py _CACHE_TTL). -/
def CACHE_TTL : ℚ := 300

/-- What one call to refresh_notes_cache produced: the returned mapping, the
cache state afterwards, and whether a remote fetch was performed. -/
structure RefreshResult where
  result : NotesMap
  state : CacheState
  fetched : Bool
deriving DecidableEq

/-- backend/main.refresh_notes_cache.  repoConfigured tells whether the
KNOWLEDGE_REPO environment variable is set; fetchOutcome is what the single
remote fetch of this call would produce. -/
def refresh_notes_cache (force : Bool) (now : ℚ) (repoConfigured : Bool)
    (fetchOutcome : Except String NotesMap) (st : CacheState) : RefreshResult :=
  if !force ∧ !st.notes_cache.isEmpty ∧ now - st.cache_timestamp < CACHE_TTL then
    { result := st.notes_cache, state := st, fetched := false }
  else if !repoConfigured then
    { result := [], state := st, fetched := false }
  else
    match fetchOutcome with
    | .ok notes => { result := notes, state := ⟨notes, now⟩, fetched := true }
    | .error _ =>
      if !st.notes_cache.isEmpty then
        { result := st.notes_cache, state := st, fetched := true }
      else
        { result := [], state := st, fetched := true }

/-!
The PR tracking ledger (_submitted_prs in backend/main.py) and the two
operations of the claims that mutate record status: the GitHub webhook
handler for pull_request events and the PR status poll endpoint.
-/

/-- A tracked pull request record. -/
structure PRRecord where
  pr_number : Nat
  pr_url : String
  branch : String
  user_email : String
  files : List String
  status : String
  submitted_at : String
  merged_at : Option String
  closed_at : Option String
deriving DecidableEq

/-- The ledger: pr number to record, in insertion order. -/
abbrev Ledger := List (Nat × PRRecord)

/-- Ledger lookup (Python: _submitted_prs[pr_number]; keys are unique). -/
def lookupPR : Ledger → Nat → Option PRRecord
  | [], _ => none
  | (k, r) :: t, n => if k = n then some r else lookupPR t n

/-- Ledger key membership (Python: pr_number in _submitted_prs). -/
def ledgerHas (ledger : Ledger) (n : Nat) : Bool :=
  (lookupPR ledger n).isSome

/-- Update the record stored under one key, when present. -/
def updatePR (ledger : Ledger) (n : Nat) (f : PRRecord → PRRecord) : Ledger :=
  ledger.map fun kr => if kr.1 = n then (kr.1, f kr.2) else kr

/-- The status of the record under one key. -/
def statusOf (ledger : Ledger) (n : Nat) : Option String :=
  (lookupPR ledger n).map (·.status)

/-- What one webhook pull_request event left behind: the ledger, the number
of forced cache refreshes triggered, and the response message. -/
structure WebhookResult where
  ledger : Ledger
  refreshes : Nat
  message : String
deriving DecidableEq

/-- backend/main.github_webhook, pull_request branch.  prNumber is the
optional number field of the payload (payload.get); nowIso the
datetime.utcnow().isoformat() value of this request.  A merged close
triggers one forced refresh and, for a tracked number, sets status merged
with the merge timestamp; an unmerged close sets status closed with the
close timestamp and triggers no refresh; every other action only
acknowledges. -/
def github_webhook_pr (action : String) (prNumber : Option Nat) (merged : Bool)
    (nowIso : String) (ledger : Ledger) : WebhookResult :=
  let numStr := match prNumber with | some n => toString n | none => "None"
  if action = "closed" then
    if merged then
      let ledger' :=
        match prNumber with
        | some n => updatePR ledger n fun r =>
            { r with status := "merged", merged_at := some nowIso }
        | none => ledger
      { ledger := ledger', refreshes := 1,
        message := "PR #" ++ numStr ++ " merged, knowledge base refreshed" }
    else
      let ledger' :=
        match prNumber with
        | some n => updatePR ledger n fun r =>
            { r with status := "closed", closed_at := some nowIso }
        | none => ledger
      { ledger := ledger', refreshes := 0, message := "PR #" ++ numStr ++ " closed" }
  else
    { ledger := ledger, refreshes := 0, message := "Webhook received" }

/-- A webhook pull_request event, for iterating event sequences. -/
structure PREvent where
  action : String
  prNumber : Option Nat
  merged : Bool
  nowIso : String

/-- The ledger after one webhook pull_request event. -/
def applyPREvent (e : PREvent) (ledger : Ledger) : Ledger :=
  (github_webhook_pr e.action e.prNumber e.merged e.nowIso ledger).ledger

/-- The ledger after a sequence of webhook pull_request events. -/
def applyPREvents (evs : List PREvent) (ledger : Ledger) : Ledger :=
  evs.foldl (fun l e => applyPREvent e l) ledger

/-- What github_client.get_pr_status reports for a PR: the ternary status
derived from the remote merged flag and state field, and the optional
timestamps. -/
structure RemotePRStatus where
  status : String
  merged_at : Option String
  closed_at : Option String
deriving DecidableEq

/-- The ternary status derivation of github_client.get_pr_status: merged
takes precedence, then closed, else open. -/
def get_pr_status_status (merged : Bool) (state : String) : String :=
  if merged then "merged" else if state = "closed" then "closed" else "open"

/-- github_client.get_pr_status, its remote observation given as data. -/
def get_pr_status (merged : Bool) (state : String)
    (mergedAt closedAt : Option String) : RemotePRStatus :=
  { status := get_pr_status_status merged state,
    merged_at := mergedAt, closed_at := closedAt }

/-- Python truthiness of an optional string (if result.get(...)). -/
def truthyOr (x old : Option String) : Option String :=
  match x with
  | some s => if s = "" then old else some s
  | none => old

/-- backend/main.get_pr_status_endpoint, the local-tracking update step:
when the number is tracked, the status is overwritten with the remote
status verbatim and truthy timestamps are copied. -/
def poll_update (n : Nat) (remote : RemotePRStatus) (ledger : Ledger) : Ledger :=
  if ledgerHas ledger n then
    updatePR ledger n fun r =>
      { r with status := remote.status,
               merged_at := truthyOr remote.merged_at r.merged_at,
               closed_at := truthyOr remote.closed_at r.closed_at }
  else ledger

/-!
github_client.verify_webhook_signature computes
"sha256=" + hmac.new(secret.encode("utf-8"), payload, hashlib.sha256).hexdigest()
and compares it with the header in constant time (hmac.compare_digest, whose
result equals plain string equality).  The digest pipeline - UTF-8 encoding,
SHA-256 (FIPS 180-4) and HMAC (RFC 2104) - is embedded concretely below over
byte lists, with 32-bit words as naturals reduced modulo 2 to the 32.
-/

/-- A byte string: list of naturals below 256. -/
abbrev Bytes := List Nat

/-- 32-bit modular addition. -/
def add32 (a b : Nat) : Nat := (a + b) % 4294967296

/-- 32-bit right rotation. -/
def rotr (n x : Nat) : Nat := (x >>> n) ||| ((x <<< (32 - n)) % 4294967296)

/-- SHA-256 Ch function. -/
def shaCh (x y z : Nat) : Nat := (x &&& y) ^^^ ((x ^^^ 4294967295) &&& z)

/-- SHA-256 Maj function. -/
def shaMaj (x y z : Nat) : Nat := (x &&& y) ^^^ (x &&& z) ^^^ (y &&& z)

/-- SHA-256 big Sigma 0. -/
def bigS0 (x : Nat) : Nat := rotr 2 x ^^^ rotr 13 x ^^^ rotr 22 x

/-- SHA-256 big Sigma 1. -/
def bigS1 (x : Nat) : Nat := rotr 6 x ^^^ rotr 11 x ^^^ rotr 25 x

/-- SHA-256 small sigma 0. -/
def smallS0 (x : Nat) : Nat := rotr 7 x ^^^ rotr 18 x ^^^ (x >>> 3)

/-- SHA-256 small sigma 1. -/
def smallS1 (x : Nat) : Nat := rotr 17 x ^^^ rotr 19 x ^^^ (x >>> 10)

/-- The SHA-256 round constants. -/
def shaK : List Nat :=
  [1116352408, 1899447441, 3049323471, 3921009573, 961987163,
   1508970993, 2453635748, 2870763221, 3624381080, 310598401,
   607225278, 1426881987, 1925078388, 2162078206, 2614888103,
   3248222580, 3835390401, 4022224774, 264347078, 604807628,
   770255983, 1249150122, 1555081692, 1996064986, 2554220882,
   2821834349, 2952996808, 3210313671, 3336571891, 3584528711,
   113926993, 338241895, 666307205, 773529912, 1294757372,
   1396182291, 1695183700, 1986661051, 2177026350, 2456956037,
   2730485921, 2820302411, 3259730800, 3345764771, 3516065817,
   3600352804, 4094571909, 275423344, 430227734, 506948616,
   659060556, 883997877, 958139571, 1322822218, 1537002063,
   1747873779, 1955562222, 2024104815, 2227730452, 2361852424,
   2428436474, 2756734187, 3204031479, 3329325298]

/-- The SHA-256 initial hash value. -/
def shaH0 : List Nat :=
  [1779033703, 3144134277, 1013904242, 2773480762,
   1359893119, 2600822924, 528734635, 1541459225]

/-- A natural as k big-endian bytes. -/
def natToBe (k : Nat) (n : Nat) : Bytes :=
  (List.range k).map fun i => (n >>> (8 * (k - 1 - i))) % 256

/-- SHA-256 padding: append 0x80, zeros to 56 mod 64, and the 8-byte
big-endian bit length. -/
def shaPad (msg : Bytes) : Bytes :=
  let L := msg.length
  let zeros := (64 - (L + 9) % 64) % 64
  msg ++ [128] ++ List.replicate zeros 0 ++ natToBe 8 (8 * L)

/-- Big-endian 32-bit words from bytes (length a multiple of 4). -/
def toWords : Bytes → List Nat
  | b0 :: b1 :: b2 :: b3 :: rest =>
    (((b0 * 256 + b1) * 256 + b2) * 256 + b3) :: toWords rest
  | _ => []

/-- The next word of the message schedule, from the words so far. -/
def schedNext (w : List Nat) : Nat :=
  add32 (add32 (smallS1 (w.getD (w.length - 2) 0)) (w.getD (w.length - 7) 0))
    (add32 (smallS0 (w.getD (w.length - 15) 0)) (w.getD (w.length - 16) 0))

/-- Extend the 16 block words by n schedule words. -/
def sched (w : List Nat) : Nat → List Nat
  | 0 => w
  | n + 1 => sched (w ++ [schedNext w]) n

/-- One SHA-256 compression round on the eight working variables. -/
def shaRound (w : List Nat) (st : List Nat) (t : Nat) : List Nat :=
  match st with
  | [a, b, c, d, e, f, g, h] =>
    let t1 := add32 h (add32 (bigS1 e) (add32 (shaCh e f g)
      (add32 (shaK.getD t 0) (w.getD t 0))))
    let t2 := add32 (bigS0 a) (shaMaj a b c)
    [add32 t1 t2, a, b, c, add32 d t1, e, f, g]
  | other => other

/-- Compress one 16-word block into the digest state. -/
def shaCompress (h : List Nat) (block : List Nat) : List Nat :=
  let w := sched block 48
  let final := (List.range 64).foldl (shaRound w) h
  List.zipWith add32 h final

/-- Process the padded words, 16 per block; the fuel is the word count. -/
def shaBlocks (fuel : Nat) (h : List Nat) (ws : List Nat) : List Nat :=
  match fuel with
  | 0 => h
  | fuel + 1 =>
    match ws with
    | [] => h
    | _ => shaBlocks fuel (shaCompress h (ws.take 16)) (ws.drop 16)

/-- SHA-256 of a byte string, as 32 digest bytes. -/
def sha256 (msg : Bytes) : Bytes :=
  let ws := toWords (shaPad msg)
  (shaBlocks ws.length shaH0 ws).flatMap (natToBe 4)

/-- HMAC-SHA256 (RFC 2104): block size 64, opad 0x5c, ipad 0x36. -/
def hmacSha256 (key msg : Bytes) : Bytes :=
  let k0 := if 64 < key.length then sha256 key else key
  let k := k0 ++ List.replicate (64 - k0.length) 0
  sha256 ((k.map fun b => b ^^^ 0x5c) ++ sha256 ((k.map fun b => b ^^^ 0x36) ++ msg))

/-- A lowercase hexadecimal digit. -/
def hexDigit (n : Nat) : Char :=
  if n < 10 then Char.ofNat (48 + n) else Char.ofNat (87 + n)

/-- Lowercase hexadecimal rendering of bytes (hexdigest). -/
def toHexL (bs : Bytes) : List Char :=
  bs.flatMap fun b => [hexDigit (b / 16), hexDigit (b % 16)]

/-- UTF-8 encoding of one character. -/
def utf8Char (c : Char) : Bytes :=
  let n := c.toNat
  if n < 128 then [n]
  else if n < 2048 then [192 ||| (n >>> 6), 128 ||| (n &&& 63)]
  else if n < 65536 then
    [224 ||| (n >>> 12), 128 ||| ((n >>> 6) &&& 63), 128 ||| (n &&& 63)]
  else
    [240 ||| (n >>> 18), 128 ||| ((n >>> 12) &&& 63),
     128 ||| ((n >>> 6) &&& 63), 128 ||| (n &&& 63)]

/-- UTF-8 encoding of a string (str.encode). -/
def utf8Encode (s : String) : Bytes :=
  s.data.flatMap utf8Char

/-- The expected signature header value for a payload under a secret:
"sha256=" followed by the lowercase HMAC-SHA256 hex digest. -/
def expectedSignature (secret : String) (payload : Bytes) : String :=
  String.mk ("sha256=".data ++ toHexL (hmacSha256 (utf8Encode secret) payload))

/-- github_client.verify_webhook_signature.  The header is rejected when
empty or without the "sha256=" prefix; otherwise it is compared with the
expected value (hmac.compare_digest agrees with equality). -/
def verify_webhook_signature (payload : Bytes) (signature : String)
    (secret : String) : Bool :=
  if signature = "" || !("sha256=".data.isPrefixOf signature.data) then false
  else signature = expectedSignature secret payload

/-- A one-note store exercising search_cap_spec. -/
def searchWitnessStore : NotesMap :=
  [("a.md", { content := "alpha beta", title := "Alpha", path := "a.md",
              topic := "General" })]

/-- The same store with every topic field rewritten, for stating that
list_notes never reads the topic field. -/
def retopic (f : String → NoteData → String) (notes : NotesMap) : NotesMap :=
  notes.map fun pn => (pn.1, { pn.2 with topic := f pn.1 pn.2 })

/-- A manifest assigning foo.md to the Security cluster. -/
def c8manifest : List (String × String) := [("foo.md", "Security")]

/-- The note record fetch_knowledge_base builds for foo.md under that
manifest: its topic field is the manifest-derived "Security". -/
def c8note : NoteData :=
  { content := "# Foo\ncontent", title := "Foo", path := "foo.md",
    topic := note_topic c8manifest "foo.md" }

/-- A store holding that single note. -/
def c8store : NotesMap := [("foo.md", c8note)]

/-- A note record for the cache counterexamples and witnesses. -/
def cacheNote : NoteData :=
  { content := "c", title := "A", path := "a.md", topic := "General" }

/-- A non-empty cache last fetched at time 0. -/
def cacheState0 : CacheState :=
  { notes_cache := [("a.md", cacheNote)], cache_timestamp := 0 }

/-- A tracked open pull request for the webhook witnesses. -/
def prRec0 : PRRecord :=
  { pr_number := 5, pr_url := "http://example/5", branch := "kb/note-1",
    user_email := "u@example.com", files := ["a.md"], status := "open",
    submitted_at := "2026-01-01T00:00:00", merged_at := none, closed_at := none }

/-- The same record after an unmerged close. -/
def prRecClosed : PRRecord :=
  { prRec0 with status := "closed", closed_at := some "2026-01-02T00:00:00" }

/-- A ledger tracking the open record. -/
def ledger0 : Ledger := [(5, prRec0)]

/-- A ledger tracking the closed record. -/
def ledgerClosed : Ledger := [(5, prRecClosed)]

/-- A sample webhook event sequence: a merged close of PR 5. -/
def c5events : List PREvent :=
  [{ action := "closed", prNumber := some 5, merged := true, nowIso := "t1" }]

/-!
Helper lemmas about the embedded Python string primitives.
-/

theorem dropWhile_eq_nil_or_head (p : α → Bool) (l : List α) :
    l.dropWhile p = [] ∨ ∃ a as, l.dropWhile p = a :: as ∧ p a = false := by
  induction l with
  | nil => exact Or.inl rfl
  | cons c cs ih =>
    by_cases h : p c
    · simpa [List.dropWhile_cons, h] using ih
    · exact Or.inr ⟨c, cs, by simp [List.dropWhile_cons, h], by simp [h]⟩

theorem dropWhile_idem (p : α → Bool) (l : List α) :
    (l.dropWhile p).dropWhile p = l.dropWhile p := by
  rcases dropWhile_eq_nil_or_head p l with h | ⟨a, as, h, hpa⟩
  · simp [h]
  · simp [h, List.dropWhile_cons, hpa]

theorem pyStripL_dropWhile (l : List Char) :
    pyStripL (l.dropWhile isPySpace) = pyStripL l := by
  unfold pyStripL
  rw [dropWhile_idem]

theorem takeWhile_append_of_all (p : α → Bool) (l₁ l₂ : List α)
    (h : ∀ a ∈ l₁, p a = true) :
    (l₁ ++ l₂).takeWhile p = l₁ ++ l₂.takeWhile p := by
  induction l₁ with
  | nil => simp
  | cons c cs ih =>
    have hc : p c = true := h c (List.mem_cons_self c cs)
    simp only [List.cons_append, List.takeWhile_cons, hc, if_true]
    rw [ih fun a ha => h a (List.mem_cons_of_mem c ha)]

theorem isPrefixOf_append_self [BEq α] [LawfulBEq α] (l r : List α) :
    l.isPrefixOf (l ++ r) = true := by
  induction l with
  | nil => simp [List.isPrefixOf]
  | cons c cs ih => simp [List.isPrefixOf, ih]

/-- C9: searchNotes called when the note store is empty returns the
"no knowledge base loaded" message, for every query string; the embedded
function is total, reflecting that this code path raises no exception. -/
theorem search_empty_spec (query : String) :
    search_knowledge [] query =
      "No knowledge base loaded. Please ensure notes are available." := rfl

/-- C10: for every query over every note store with at least one match, the
formatted result of searchNotes itemizes exactly min(number of matches, 10)
notes - hence at most 10 - and, when more than 10 notes match, additionally
reports the exact count of omitted matches. -/
theorem search_cap_spec (notes : NotesMap) (query : String)
    (h1 : notes.isEmpty = false)
    (h2 : (searchMatches notes query).isEmpty = false) :
    ((searchMatches notes query).take 10).length ≤ 10 ∧
    ((searchMatches notes query).take 10).length =
      min (searchMatches notes query).length 10 ∧
    search_knowledge notes query =
      "Found " ++ toString (searchMatches notes query).length ++
        " note(s) matching \x27" ++ query ++ "\x27:\n\n" ++
        String.join (((searchMatches notes query).take 10).map fmtMatch) ++
        (if 10 < (searchMatches notes query).length then
          "...and " ++ toString ((searchMatches notes query).length - 10) ++
            " more results."
        else "") := by
  refine ⟨?_, ?_, ?_⟩
  · simp [List.length_take]
  · simp [List.length_take, Nat.min_comm]
  · simp only [search_knowledge, h1, h2, Bool.false_eq_true, if_false]
    split
    · simp [String.append_assoc]
    · simp [String.append_assoc]

theorem search_cap_spec_witness :
    ((searchMatches searchWitnessStore "alp").take 10).length ≤ 10 ∧
    ((searchMatches searchWitnessStore "alp").take 10).length =
      min (searchMatches searchWitnessStore "alp").length 10 ∧
    search_knowledge searchWitnessStore "alp" =
      "Found " ++ toString (searchMatches searchWitnessStore "alp").length ++
        " note(s) matching \x27" ++ "alp" ++ "\x27:\n\n" ++
        String.join (((searchMatches searchWitnessStore "alp").take 10).map fmtMatch) ++
        (if 10 < (searchMatches searchWitnessStore "alp").length then
          "...and " ++ toString ((searchMatches searchWitnessStore "alp").length - 10) ++
            " more results."
        else "") :=
  search_cap_spec searchWitnessStore "alp" (by decide) (by decide)

/-- C6, amended: when the first line of the stripped content is a hash, a
space and heading text that is nonempty after stripping, the extracted title
is that heading text stripped; when the heading pattern does not match at
all (a hash followed by whitespace and further text, the whitespace possibly
spanning newlines), the result is the filename with "-" and "_" replaced by
spaces, every occurrence of ".md" removed, and the result title-cased. -/
theorem extract_title_spec (content filename t : String) :
    (String.mk (firstLineL (pyStripL content.data)) = "# " ++ t →
      pyStrip t ≠ "" →
      extract_title_from_content content filename = pyStrip t) ∧
    (titleMatches content = false →
      extract_title_from_content content filename = fallbackTitle filename) := by
  constructor
  · intro h1 h2
    have hd : (pyStripL content.data).takeWhile (· ≠ '\n') = '#' :: ' ' :: t.data := by
      have h := congrArg String.data h1
      simpa [firstLineL, String.data_append] using h
    have ht_chars : ∀ c ∈ t.data, c ≠ '\n' := by
      intro c hc
      have hmem : c ∈ (pyStripL content.data).takeWhile (· ≠ '\n') := by
        rw [hd]
        exact List.mem_cons_of_mem _ (List.mem_cons_of_mem _ hc)
      simpa using List.mem_takeWhile_imp hmem
    have hsplit : pyStripL content.data =
        '#' :: ' ' :: (t.data ++ (pyStripL content.data).dropWhile (· ≠ '\n')) := by
      conv_lhs => rw [← List.takeWhile_append_dropWhile (fun c => decide (c ≠ '\n'))
        (pyStripL content.data)]
      rw [show (pyStripL content.data).takeWhile (fun c => decide (c ≠ '\n')) =
        '#' :: ' ' :: t.data from hd]
      simp
    rcases dropWhile_eq_nil_or_head isPySpace t.data with hts | ⟨d, ds, hts, hd2⟩
    · exfalso
      apply h2
      show String.mk (pyStripL t.data) = ""
      have : pyStripL t.data = [] := by
        unfold pyStripL
        rw [hts]
        simp
      rw [this]
    · have htail : ((pyStripL content.data).dropWhile (· ≠ '\n')).takeWhile
          (fun c => decide (c ≠ '\n')) = [] := by
        rcases dropWhile_eq_nil_or_head (fun c => decide (c ≠ '\n'))
          (pyStripL content.data) with h | ⟨a, as, h, hpa⟩
        · rw [h]
          rfl
        · rw [h, List.takeWhile_cons, hpa]
          simp
      unfold extract_title_from_content
      rw [hsplit]
      generalize hT : (pyStripL content.data).dropWhile (· ≠ '\n') = TAIL at htail
      simp only [if_pos rfl]
      have hws : ((' ' :: (t.data ++ TAIL)).takeWhile isPySpace).isEmpty = false := by
        rw [List.takeWhile_cons]
        simp [isPySpace]
      have hrd : (' ' :: (t.data ++ TAIL)).dropWhile isPySpace =
          (d :: ds) ++ TAIL := by
        rw [List.dropWhile_cons]
        have hsp : isPySpace ' ' = true := by simp [isPySpace]
        rw [if_pos hsp, List.dropWhile_append, hts]
        simp
      rw [hrd]
      have hre : ((d :: ds) ++ TAIL).isEmpty = false := by simp
      rw [hws, hre]
      simp only [Bool.or_self, Bool.false_eq_true, if_false]
      have hall : ∀ a ∈ d :: ds, (fun c => decide (c ≠ '\n')) a = true := by
        intro a ha
        have : a ∈ t.data := (List.dropWhile_sublist isPySpace).subset (hts ▸ ha)
        simpa using ht_chars a this
      rw [takeWhile_append_of_all _ _ _ hall, htail, List.append_nil, ← hts,
        pyStripL_dropWhile]
      rfl
  · intro h
    unfold extract_title_from_content
    unfold titleMatches at h
    split at h
    next c rest heq =>
      by_cases hc : c = '#'
      · subst hc
        simp only [decide_True, Bool.true_and] at h
        cases hA : (rest.takeWhile isPySpace).isEmpty
        · cases hB : (rest.dropWhile isPySpace).isEmpty
          · rw [hA, hB] at h
            simp at h
          · simp [hA, hB]
        · simp [hA]
      · simp [hc]
    next => rfl

theorem extract_title_spec_witness :
    extract_title_from_content "# Foo Bar\nbody" "f.md" = pyStrip "Foo Bar" ∧
    extract_title_from_content "plain text" "my-note_file.md" =
      fallbackTitle "my-note_file.md" :=
  ⟨(extract_title_spec "# Foo Bar\nbody" "f.md" "Foo Bar").1 (by decide) (by decide),
   (extract_title_spec "plain text" "my-note_file.md" "").2 (by decide)⟩

/-- C6 counterexample: the content "#" LF "Hello" has the bare first line
"#", which supplies no heading, so the claim requires the filename-derived
fallback "Test"; the code returns "Hello", because the whitespace consumed
by the regular expression crosses the newline. -/
theorem extract_title_counterexample :
    String.mk (firstLineL (pyStripL ("#\nHello").data)) = "#" ∧
    extract_title_from_content "#\nHello" "test.md" = "Hello" ∧
    fallbackTitle "test.md" = "Test" ∧
    extract_title_from_content "#\nHello" "test.md" ≠ fallbackTitle "test.md" := by
  decide

theorem slugSub_mem : ∀ (l : List Char) (b : Bool), ∀ c ∈ slugSub b l,
    isSlugChar c = true ∨ c = '-' := by
  intro l
  induction l with
  | nil => intro b c hc; simp [slugSub] at hc
  | cons a as ih =>
    intro b c hc
    simp only [slugSub] at hc
    by_cases ha : isSlugChar a
    · rw [if_pos ha] at hc
      rcases List.mem_cons.mp hc with hc | hc
      · exact Or.inl (hc ▸ ha)
      · exact ih false c hc
    · rw [if_neg ha] at hc
      cases b
      · rw [if_neg (by simp)] at hc
        rcases List.mem_cons.mp hc with hc | hc
        · exact Or.inr hc
        · exact ih true c hc
      · rw [if_pos rfl] at hc
        exact ih true c hc

theorem slugSub_true_head : ∀ (l : List Char) (c : Char) (cs : List Char),
    slugSub true l = c :: cs → isSlugChar c = true := by
  intro l
  induction l with
  | nil => intro c cs h; simp [slugSub] at h
  | cons a as ih =>
    intro c cs h
    simp only [slugSub] at h
    by_cases ha : isSlugChar a
    · rw [if_pos ha] at h
      rcases List.cons.injEq .. ▸ h with ⟨h1, h2⟩
      exact h1 ▸ ha
    · rw [if_neg ha] at h
      simp only [if_true] at h
      exact ih c cs h

theorem slugSub_chain : ∀ (l : List Char) (b : Bool),
    List.Chain' (fun a b => ¬(a = '-' ∧ b = '-')) (slugSub b l) := by
  intro l
  induction l with
  | nil => intro b; simp [slugSub]
  | cons a as ih =>
    intro b
    simp only [slugSub]
    by_cases ha : isSlugChar a
    · rw [if_pos ha, List.chain'_cons']
      refine ⟨?_, ih false⟩
      intro y _ hcon
      rw [hcon.1] at ha
      exact absurd ha (by decide)
    · rw [if_neg ha]
      cases b
      · rw [if_neg (by simp), List.chain'_cons']
        refine ⟨?_, ih true⟩
        intro y hy hcon
        rcases hs : slugSub true as with _ | ⟨c, cs⟩
        · rw [hs] at hy
          simp at hy
        · rw [hs] at hy
          simp at hy
          have := slugSub_true_head as c cs hs
          rw [hy] at this
          rw [hcon.2] at this
          exact absurd this (by decide)
      · rw [if_pos rfl]
        exact ih true

theorem head_dropWhile_ne (p : α → Bool) (l : List α) (c : α)
    (h : (l.dropWhile p).head? = some c) : p c = false := by
  rcases dropWhile_eq_nil_or_head p l with h' | ⟨a, as, h', hpa⟩
  · rw [h'] at h
    simp at h
  · rw [h'] at h
    simp at h
    exact h ▸ hpa

theorem chain'_stripDashes {R : Char → Char → Prop}
    (hsymm : ∀ a b, R a b → R b a) (l : List Char) (h : List.Chain' R l) :
    List.Chain' R (stripDashes l) := by
  have hrev : ∀ m : List Char, List.Chain' R m → List.Chain' R m.reverse := by
    intro m hm
    rw [List.chain'_reverse]
    exact hm.imp fun a b hab => hsymm a b hab
  unfold stripDashes
  apply hrev
  exact (hrev _ (h.suffix (List.dropWhile_suffix _))).suffix (List.dropWhile_suffix _)

theorem stripDashes_ends (l : List Char) :
    (∀ c, (stripDashes l).head? = some c → c ≠ '-') ∧
    (∀ c, (stripDashes l).getLast? = some c → c ≠ '-') := by
  constructor
  · intro c hc
    rw [stripDashes, List.head?_reverse] at hc
    rcases hnil : ((l.dropWhile (· = '-')).reverse.dropWhile (· = '-')) with _ | ⟨a, as⟩
    · rw [hnil] at hc
      simp at hc
    · have hsuf := List.dropWhile_suffix (l := (l.dropWhile (· = '-')).reverse)
        (fun c => decide (c = '-'))
      obtain ⟨pre, hpre⟩ := hsuf
      have : (l.dropWhile (· = '-')).reverse.getLast? = some c := by
        rw [← hpre, List.getLast?_append_of_ne_nil]
        · exact hc
        · rw [hnil]
          simp
      rw [List.getLast?_reverse] at this
      have hp := head_dropWhile_ne _ _ _ this
      simpa using hp
  · intro c hc
    rw [stripDashes, List.getLast?_reverse] at hc
    have hp := head_dropWhile_ne _ _ _ hc
    simpa using hp

theorem stripDashes_subset (l : List Char) : ∀ c ∈ stripDashes l, c ∈ l := by
  intro c hc
  rw [stripDashes, List.mem_reverse] at hc
  have h1 := (List.dropWhile_sublist (l := (l.dropWhile (· = '-')).reverse)
    (fun c => decide (c = '-'))).subset hc
  rw [List.mem_reverse] at h1
  exact (List.dropWhile_sublist _).subset h1

theorem slugify_wf (s : String) : slugWF (slugify s) := by
  refine ⟨?_, (stripDashes_ends _).1, (stripDashes_ends _).2, ?_⟩
  · intro c hc
    exact slugSub_mem _ false c (stripDashes_subset _ c hc)
  · exact chain'_stripDashes (fun a b hab hc => hab ⟨hc.2, hc.1⟩) _
      (slugSub_chain _ false)

/-- C7: draft_note with title and path omitted derives the title from the
first "# " heading line of the stripped content (falling back to the literal
"Untitled Note"), derives the path as the slugified title with ".md"
appended, where the slug is well formed (lowercase alphanumerics and single
separating hyphens, trimmed), and sets is_new exactly when the derived path
is absent from the note store snapshot. -/
theorem draft_note_spec (content : String) (notes : NotesMap) (t : String) :
    (String.mk (firstLineL (pyStripL content.data)) = "# " ++ t →
      (draft_note content none none notes).title = pyStrip t) ∧
    (['#', ' '].isPrefixOf (firstLineL (pyStripL content.data)) = false →
      (draft_note content none none notes).title = "Untitled Note") ∧
    (draft_note content none none notes).path =
      String.mk (slugify ((draft_note content none none notes).title)) ++ ".md" ∧
    ((draft_note content none none notes).is_new = true ↔
      containsKey notes ((draft_note content none none notes).path) = false) ∧
    slugWF (slugify ((draft_note content none none notes).title)) := by
  refine ⟨?_, ?_, rfl, ?_, slugify_wf _⟩
  · intro h1
    have hd : firstLineL (pyStripL content.data) = '#' :: ' ' :: t.data := by
      have h := congrArg String.data h1
      simpa [String.data_append] using h
    show deriveTitle content = pyStrip t
    unfold deriveTitle
    rw [hd]
    rw [if_pos (by simp [List.isPrefixOf])]
    rfl
  · intro h2
    show deriveTitle content = "Untitled Note"
    unfold deriveTitle
    rw [if_neg]
    rw [h2]
    simp
  · show (!containsKey notes ((draft_note content none none notes).path)) = true ↔ _
    simp

/-- The concrete instance of the spec: content starting with a Feature Flags
heading yields that title and the slugified path. -/
theorem draft_note_example :
    (draft_note "# Feature Flags\nBody" none none []).title = "Feature Flags" ∧
    (draft_note "# Feature Flags\nBody" none none []).path = "feature-flags.md" ∧
    (draft_note "# Feature Flags\nBody" none none []).is_new = true := by
  decide

theorem draft_note_spec_witness :
    (draft_note "# Feature Flags\nBody" none none []).title = pyStrip "Feature Flags" ∧
    (draft_note "# Feature Flags\nBody" none none []).path =
      String.mk (slugify ((draft_note "# Feature Flags\nBody" none none []).title)) ++ ".md" ∧
    ((draft_note "# Feature Flags\nBody" none none []).is_new = true ↔
      containsKey [] ((draft_note "# Feature Flags\nBody" none none []).path) = false) :=
  ⟨(draft_note_spec "# Feature Flags\nBody" [] "Feature Flags").1 (by decide),
   (draft_note_spec "# Feature Flags\nBody" [] "Feature Flags").2.2.1,
   (draft_note_spec "# Feature Flags\nBody" [] "Feature Flags").2.2.2.1⟩

/-- C8, amended: list_notes groups each note under the first directory
component of its path - "General" for a top-level path - and never reads the
manifest-derived topic field: rewriting every topic leaves the listing
unchanged, and every store entry appears among the items of its path-derived
group. -/
theorem list_notes_topics (notes : NotesMap) (f : String → NoteData → String)
    (p : String) (n : NoteData) (h : (p, n) ∈ notes) :
    list_notes (retopic f notes) = list_notes notes ∧
    (p, n.title) ∈ groupItems (itemsOf notes) (groupKey p) := by
  constructor
  · unfold list_notes
    congr 1
    unfold itemsOf retopic
    rw [List.map_map]
    rfl
  · unfold groupItems itemsOf
    rw [List.mem_filter]
    constructor
    · exact List.mem_map.mpr ⟨(p, n), h, rfl⟩
    · simp

theorem list_notes_topics_witness :
    list_notes (retopic (fun _ _ => "X") c8store) = list_notes c8store ∧
    ("foo.md", c8note.title) ∈ groupItems (itemsOf c8store) (groupKey "foo.md") :=
  list_notes_topics c8store (fun _ _ => "X") "foo.md" c8note (by decide)

/-- C8 counterexample: the store holds one note whose manifest-derived topic
field is "Security", yet the listing groups it under the "General" heading
and the string "Security" occurs nowhere in the output. -/
theorem list_notes_counterexample :
    (lookupNote c8store "foo.md").map (fun n => n.topic) = some "Security" ∧
    list_notes c8store =
      "Knowledge Base: 1 note(s) across 1 topic(s)\n\n## General (1 notes)\n- **Foo** (`foo.md`)\n\nUse search_knowledge to find specific information, or get_note to read a full note." ∧
    containsSub "Security".data (list_notes c8store).data = false := by
  decide

/-- C1, amended: with force unset and a non-empty cache, a call strictly
before the TTL expiry returns the cached mapping unchanged with no remote
fetch; and a remote fetch is performed exactly when the repository is
configured and now - fetched_at is at least the TTL (the code treats the
boundary instant now - fetched_at = TTL as stale, so staleness is a
non-strict comparison). -/
theorem cache_ttl_spec (st : CacheState) (now : ℚ) (rc : Bool)
    (fr : Except String NotesMap) (hne : st.notes_cache ≠ []) :
    (now - st.cache_timestamp < CACHE_TTL →
      refresh_notes_cache false now rc fr st =
        { result := st.notes_cache, state := st, fetched := false }) ∧
    ((refresh_notes_cache false now rc fr st).fetched = true ↔
      rc = true ∧ CACHE_TTL ≤ now - st.cache_timestamp) := by
  have hni : st.notes_cache.isEmpty = false := by
    cases hsc : st.notes_cache
    · exact absurd hsc hne
    · rfl
  constructor
  · intro hfresh
    unfold refresh_notes_cache
    rw [if_pos ⟨rfl, by simp [hni], hfresh⟩]
  · unfold refresh_notes_cache
    by_cases hfresh : now - st.cache_timestamp < CACHE_TTL
    · rw [if_pos ⟨rfl, by simp [hni], hfresh⟩]
      simp only [Bool.false_eq_true, false_iff]
      rintro ⟨-, hle⟩
      exact absurd hle (not_le.mpr hfresh)
    · rw [if_neg fun hcon => hfresh hcon.2.2]
      have hge : CACHE_TTL ≤ now - st.cache_timestamp := le_of_not_lt hfresh
      cases rc
      · simp
      · cases fr with
        | ok notes => simp [hge]
        | error e =>
          simp only [Bool.not_true, Bool.false_eq_true, if_false]
          split <;> simp [hge]

theorem cache_ttl_spec_witness :
    ((299 : ℚ) - cacheState0.cache_timestamp < CACHE_TTL →
      refresh_notes_cache false 299 true (.ok []) cacheState0 =
        { result := cacheState0.notes_cache, state := cacheState0, fetched := false }) ∧
    ((refresh_notes_cache false 299 true (.ok []) cacheState0).fetched = true ↔
      true = true ∧ CACHE_TTL ≤ (299 : ℚ) - cacheState0.cache_timestamp) :=
  cache_ttl_spec cacheState0 299 true (.ok []) (by decide)

/-- C1 counterexample: at exactly now = T + TTL the code performs a remote
fetch (with force unset and a non-empty cache), although now - fetched_at
is not strictly greater than the TTL, refuting the claimed staleness
definition now - fetched_at > TTL. -/
theorem cache_ttl_counterexample :
    (refresh_notes_cache false 300 true (.ok []) cacheState0).fetched = true ∧
    ¬((300 : ℚ) - cacheState0.cache_timestamp > CACHE_TTL) := by
  have hstale : ¬((300 : ℚ) - cacheState0.cache_timestamp < CACHE_TTL) := by
    norm_num [cacheState0, CACHE_TTL]
  constructor
  · unfold refresh_notes_cache
    rw [if_neg fun hcon => hstale hcon.2.2]
    rfl
  · norm_num [cacheState0, CACHE_TTL]

/-- C2: in every call in which a remote fetch is performed and fails, the
call returns the previous mapping when it is non-empty and the empty mapping
otherwise, leaves the cache state unchanged, and - the embedded function
being total - propagates no exception. -/
theorem cache_error_fallback (force rc : Bool) (now : ℚ) (e : String)
    (st : CacheState)
    (hf : (refresh_notes_cache force now rc (.error e) st).fetched = true) :
    (st.notes_cache ≠ [] →
      refresh_notes_cache force now rc (.error e) st =
        { result := st.notes_cache, state := st, fetched := true }) ∧
    (st.notes_cache = [] →
      refresh_notes_cache force now rc (.error e) st =
        { result := [], state := st, fetched := true }) := by
  unfold refresh_notes_cache at hf ⊢
  split at hf
  · simp at hf
  · split at hf
    · simp at hf
    · rename_i hcond1 hcond2
      rw [if_neg hcond1, if_neg hcond2]
      constructor
      · intro hne
        have hni : st.notes_cache.isEmpty = false := by
          cases hsc : st.notes_cache
          · exact absurd hsc hne
          · rfl
        simp [hni]
      · intro hnil
        simp [hnil]

theorem cache_error_fallback_witness :
    (cacheState0.notes_cache ≠ [] →
      refresh_notes_cache true 0 true (.error "boom") cacheState0 =
        { result := cacheState0.notes_cache, state := cacheState0, fetched := true }) ∧
    (cacheState0.notes_cache = [] →
      refresh_notes_cache true 0 true (.error "boom") cacheState0 =
        { result := [], state := cacheState0, fetched := true }) :=
  cache_error_fallback true true 0 "boom" cacheState0 (by decide)

theorem lookupPR_updatePR_self (ledger : Ledger) (n : Nat) (f : PRRecord → PRRecord) :
    lookupPR (updatePR ledger n f) n = (lookupPR ledger n).map f := by
  induction ledger with
  | nil => rfl
  | cons kr t ih =>
    obtain ⟨k, r⟩ := kr
    by_cases hk : k = n
    · simp only [updatePR, List.map_cons]
      rw [if_pos hk]
      simp only [lookupPR]
      rw [if_pos hk, if_pos hk]
      rfl
    · simp only [updatePR, List.map_cons]
      rw [if_neg hk]
      simp only [lookupPR]
      rw [if_neg hk, if_neg hk]
      exact ih

theorem lookupPR_updatePR_ne (ledger : Ledger) (n m : Nat) (f : PRRecord → PRRecord)
    (h : m ≠ n) :
    lookupPR (updatePR ledger n f) m = lookupPR ledger m := by
  induction ledger with
  | nil => rfl
  | cons kr t ih =>
    obtain ⟨k, r⟩ := kr
    have step : updatePR ((k, r) :: t) n f =
        (if k = n then (k, f r) else (k, r)) :: updatePR t n f := by
      simp only [updatePR, List.map_cons]
    rw [step]
    by_cases hk : k = n
    · have hkm : ¬(k = m) := fun hc => h (hc ▸ hk)
      rw [if_pos hk]
      simp only [lookupPR]
      rw [if_neg hkm, if_neg hkm]
      exact ih
    · by_cases hkm : k = m
      · rw [if_neg hk]
        simp only [lookupPR]
        rw [if_pos hkm, if_pos hkm]
      · rw [if_neg hk]
        simp only [lookupPR]
        rw [if_neg hkm, if_neg hkm]
        exact ih

theorem updatePR_not_has (ledger : Ledger) (n : Nat) (f : PRRecord → PRRecord)
    (h : ledgerHas ledger n = false) : updatePR ledger n f = ledger := by
  induction ledger with
  | nil => rfl
  | cons kr t ih =>
    obtain ⟨k, r⟩ := kr
    by_cases hk : k = n
    · exfalso
      rw [ledgerHas, lookupPR, if_pos hk] at h
      simp at h
    · rw [ledgerHas, lookupPR, if_neg hk] at h
      simp only [updatePR, List.map_cons, if_neg hk]
      exact congrArg (fun l => (k, r) :: l) (ih h)

/-- C3: a closed webhook event with merged true for a tracked PR sets that
record to merged with the merge timestamp and triggers exactly one forced
refresh; with merged false it sets closed with the close timestamp and no
refresh; an event for an untracked number leaves the ledger unchanged, and a
non-closed action only acknowledges. -/
theorem webhook_closed_spec (ledger : Ledger) (n : Nat) (iso : String)
    (action : String) (merged : Bool) :
    (ledgerHas ledger n = true →
      statusOf (github_webhook_pr "closed" (some n) true iso ledger).ledger n =
        some "merged" ∧
      (lookupPR (github_webhook_pr "closed" (some n) true iso ledger).ledger n).map
        (fun r => r.merged_at) = some (some iso) ∧
      (github_webhook_pr "closed" (some n) true iso ledger).refreshes = 1) ∧
    (ledgerHas ledger n = true →
      statusOf (github_webhook_pr "closed" (some n) false iso ledger).ledger n =
        some "closed" ∧
      (lookupPR (github_webhook_pr "closed" (some n) false iso ledger).ledger n).map
        (fun r => r.closed_at) = some (some iso) ∧
      (github_webhook_pr "closed" (some n) false iso ledger).refreshes = 0) ∧
    (ledgerHas ledger n = false →
      (github_webhook_pr "closed" (some n) merged iso ledger).ledger = ledger) ∧
    (action ≠ "closed" →
      github_webhook_pr action (some n) merged iso ledger =
        { ledger := ledger, refreshes := 0, message := "Webhook received" }) := by
  refine ⟨?_, ?_, ?_, ?_⟩
  · intro h
    obtain ⟨r, hr⟩ := Option.isSome_iff_exists.mp h
    have hl : (github_webhook_pr "closed" (some n) true iso ledger).ledger =
        updatePR ledger n fun r =>
          { r with status := "merged", merged_at := some iso } := rfl
    refine ⟨?_, ?_, rfl⟩
    · unfold statusOf
      rw [hl, lookupPR_updatePR_self, hr]
      rfl
    · rw [hl, lookupPR_updatePR_self, hr]
      rfl
  · intro h
    obtain ⟨r, hr⟩ := Option.isSome_iff_exists.mp h
    have hl : (github_webhook_pr "closed" (some n) false iso ledger).ledger =
        updatePR ledger n fun r =>
          { r with status := "closed", closed_at := some iso } := rfl
    refine ⟨?_, ?_, rfl⟩
    · unfold statusOf
      rw [hl, lookupPR_updatePR_self, hr]
      rfl
    · rw [hl, lookupPR_updatePR_self, hr]
      rfl
  · intro h
    cases merged
    · have hl : (github_webhook_pr "closed" (some n) false iso ledger).ledger =
          updatePR ledger n fun r =>
            { r with status := "closed", closed_at := some iso } := rfl
      rw [hl]
      exact updatePR_not_has _ _ _ h
    · have hl : (github_webhook_pr "closed" (some n) true iso ledger).ledger =
          updatePR ledger n fun r =>
            { r with status := "merged", merged_at := some iso } := rfl
      rw [hl]
      exact updatePR_not_has _ _ _ h
  · intro h
    unfold github_webhook_pr
    rw [if_neg h]

theorem webhook_closed_spec_witness :
    (statusOf (github_webhook_pr "closed" (some 5) true "t" ledger0).ledger 5 =
        some "merged" ∧
      (lookupPR (github_webhook_pr "closed" (some 5) true "t" ledger0).ledger 5).map
        (fun r => r.merged_at) = some (some "t") ∧
      (github_webhook_pr "closed" (some 5) true "t" ledger0).refreshes = 1) ∧
    (statusOf (github_webhook_pr "closed" (some 5) false "t" ledger0).ledger 5 =
        some "closed" ∧
      (lookupPR (github_webhook_pr "closed" (some 5) false "t" ledger0).ledger 5).map
        (fun r => r.closed_at) = some (some "t") ∧
      (github_webhook_pr "closed" (some 5) false "t" ledger0).refreshes = 0) ∧
    (github_webhook_pr "closed" (some 7) false "t" ledger0).ledger = ledger0 ∧
    github_webhook_pr "push" (some 5) false "t" ledger0 =
      { ledger := ledger0, refreshes := 0, message := "Webhook received" } :=
  ⟨(webhook_closed_spec ledger0 5 "t" "push" false).1 (by decide),
   (webhook_closed_spec ledger0 5 "t" "push" false).2.1 (by decide),
   (webhook_closed_spec ledger0 7 "t" "push" false).2.2.1 (by decide),
   (webhook_closed_spec ledger0 5 "t" "push" false).2.2.2 (by decide)⟩

theorem applyPREvent_not_open (e : PREvent) (ledger : Ledger) (n : Nat)
    (h : statusOf ledger n ≠ some "open") :
    statusOf (applyPREvent e ledger) n ≠ some "open" := by
  by_cases ha : e.action = "closed"
  · cases hm : e.merged
    · cases hpn : e.prNumber with
      | none =>
        have hid : applyPREvent e ledger = ledger := by
          unfold applyPREvent github_webhook_pr
          rw [if_pos ha, hm, hpn]
          simp
        rw [hid]
        exact h
      | some m =>
        have hup : applyPREvent e ledger = updatePR ledger m fun r =>
            { r with status := "closed", closed_at := some e.nowIso } := by
          unfold applyPREvent github_webhook_pr
          rw [if_pos ha, hm, hpn]
          simp
        rw [hup]
        by_cases hnm : n = m
        · subst hnm
          unfold statusOf
          rw [lookupPR_updatePR_self]
          cases lookupPR ledger n
          · simp
          · simp
        · unfold statusOf at h ⊢
          rw [lookupPR_updatePR_ne _ _ _ _ hnm]
          exact h
    · cases hpn : e.prNumber with
      | none =>
        have hid : applyPREvent e ledger = ledger := by
          unfold applyPREvent github_webhook_pr
          rw [if_pos ha, hm, hpn]
          simp
        rw [hid]
        exact h
      | some m =>
        have hup : applyPREvent e ledger = updatePR ledger m fun r =>
            { r with status := "merged", merged_at := some e.nowIso } := by
          unfold applyPREvent github_webhook_pr
          rw [if_pos ha, hm, hpn]
          simp
        rw [hup]
        by_cases hnm : n = m
        · subst hnm
          unfold statusOf
          rw [lookupPR_updatePR_self]
          cases lookupPR ledger n
          · simp
          · simp
        · unfold statusOf at h ⊢
          rw [lookupPR_updatePR_ne _ _ _ _ hnm]
          exact h
  · have hid : applyPREvent e ledger = ledger := by
      unfold applyPREvent github_webhook_pr
      rw [if_neg ha]
    rw [hid]
    exact h

/-- C5, amended: under every sequence of webhook pull_request events a record
whose status is not open never becomes open again (webhooks only write
merged or closed); but the status-poll endpoint overwrites the tracked
status with the remote-derived ternary status verbatim, so a poll reporting
the PR as reopened sets the record status to that remote value - including
back to open. -/
theorem pr_status_forward (evs : List PREvent) (ledger L : Ledger) (n m : Nat)
    (merged : Bool) (state : String) (ma ca : Option String)
    (h1 : statusOf ledger n ≠ some "open")
    (h2 : ledgerHas L m = true) :
    statusOf (applyPREvents evs ledger) n ≠ some "open" ∧
    statusOf (poll_update m (get_pr_status merged state ma ca) L) m =
      some (get_pr_status_status merged state) := by
  constructor
  · clear h2
    revert h1
    induction evs generalizing ledger with
    | nil => intro h1; exact h1
    | cons e t ih =>
      intro h1
      exact ih (applyPREvent e ledger) (applyPREvent_not_open e ledger n h1)
  · obtain ⟨r, hr⟩ := Option.isSome_iff_exists.mp h2
    unfold poll_update
    rw [if_pos h2]
    unfold statusOf
    rw [lookupPR_updatePR_self, hr]
    rfl

theorem pr_status_forward_witness :
    statusOf (applyPREvents c5events ledgerClosed) 5 ≠ some "open" ∧
    statusOf (poll_update 5 (get_pr_status true "closed" (some "t2") none) ledger0) 5 =
      some (get_pr_status_status true "closed") :=
  pr_status_forward c5events ledgerClosed ledger0 5 5 true "closed" (some "t2")
    none (by decide) (by decide)

/-- C5 counterexample: polling the status of a PR whose tracked record is
closed while the remote reports it as open (merged false, state open, as a
reopened PR) sets the record status back to open. -/
theorem pr_status_counterexample :
    statusOf ledgerClosed 5 = some "closed" ∧
    statusOf (poll_update 5 (get_pr_status false "open" none none) ledgerClosed) 5 =
      some "open" := by
  decide

/-- The SHA-256 embedding reproduces the FIPS 180-4 test vector for "abc". -/
theorem sha256_fips_vector :
    String.mk (toHexL (sha256 (utf8Encode "abc"))) =
      "ba7816bf8f01cfea414140de5dae2223b00361a396177a9cb410ff61f20015ad" := by
  decide

/-- The HMAC-SHA256 embedding reproduces RFC 4231 test case 2. -/
theorem hmac_rfc4231_case2 :
    String.mk (toHexL (hmacSha256 (utf8Encode "Jefe")
        (utf8Encode "what do ya want for nothing?"))) =
      "5bdcc146bf60754e6a042426089575c75a003f089d2739839dec58b964ec3843" := by
  decide

theorem expectedSignature_ne_empty (secret : String) (payload : Bytes) :
    expectedSignature secret payload ≠ "" := by
  unfold expectedSignature
  intro hc
  have hdata : ("sha256=".data ++ toHexL (hmacSha256 (utf8Encode secret) payload)) = [] :=
    congrArg String.data hc
  rcases List.append_eq_nil.mp hdata with ⟨h1, -⟩
  exact absurd h1 (by decide)

theorem expectedSignature_has_pre (secret : String) (payload : Bytes) :
    "sha256=".data.isPrefixOf (expectedSignature secret payload).data = true :=
  isPrefixOf_append_self _ _

/-- C4: verification succeeds exactly when the header equals "sha256=" plus
the lowercase HMAC-SHA256 hex digest of the payload under the secret; a
missing or malformed-prefix header is rejected, and any payload change that
changes the hex digest makes verification of the old signature fail. -/
theorem verify_signature_spec (payload payload' : Bytes) (signature secret : String) :
    (verify_webhook_signature payload signature secret = true ↔
      signature = expectedSignature secret payload) ∧
    ("sha256=".data.isPrefixOf signature.data = false →
      verify_webhook_signature payload signature secret = false) ∧
    (toHexL (hmacSha256 (utf8Encode secret) payload') ≠
        toHexL (hmacSha256 (utf8Encode secret) payload) →
      verify_webhook_signature payload' (expectedSignature secret payload) secret =
        false) := by
  refine ⟨⟨?_, ?_⟩, ?_, ?_⟩
  · intro hv
    unfold verify_webhook_signature at hv
    split at hv
    · simp at hv
    · simpa using hv
  · intro he
    subst he
    unfold verify_webhook_signature
    rw [if_neg]
    · simp
    · have h1 : decide (expectedSignature secret payload = "") = false :=
        decide_eq_false (expectedSignature_ne_empty secret payload)
      have h2 := expectedSignature_has_pre secret payload
      simp [h1, h2]
  · intro hp
    unfold verify_webhook_signature
    rw [if_pos (by simp [hp])]
  · intro hd
    unfold verify_webhook_signature
    rw [if_neg]
    · have hne : expectedSignature secret payload ≠ expectedSignature secret payload' := by
        intro hc
        unfold expectedSignature at hc
        have h : "sha256=".data ++ toHexL (hmacSha256 (utf8Encode secret) payload) =
            "sha256=".data ++ toHexL (hmacSha256 (utf8Encode secret) payload') :=
          congrArg String.data hc
        exact hd (List.append_cancel_left h).symm
      simp [hne]
    · have h1 : decide (expectedSignature secret payload = "") = false :=
        decide_eq_false (expectedSignature_ne_empty secret payload)
      have h2 := expectedSignature_has_pre secret payload
      simp [h1, h2]

theorem verify_signature_spec_witness :
    (verify_webhook_signature [] (expectedSignature "k" []) "k" = true ↔
      expectedSignature "k" [] = expectedSignature "k" []) ∧
    verify_webhook_signature [104] "bad-signature" "k" = false ∧
    verify_webhook_signature [97] (expectedSignature "k" []) "k" = false :=
  ⟨(verify_signature_spec [] [] (expectedSignature "k" []) "k").1,
   (verify_signature_spec [104] [] "bad-signature" "k").2.1 (by decide),
   (verify_signature_spec [] [97] "x" "k").2.2 (by decide)⟩

end KnowledgeAgent
